import Mathlib

/-!
Verification development for the crypto momentum strategy repository
(`strategy.py`, `backtester.py`, `utils.py`, `app.py`).

Modelling conventions for the shallow embedding:
* pandas float cells that can be NaN (values produced by rolling windows,
  `shift`, `diff`, `pct_change`) are modelled as `Option ℚ` / `Option ℝ`
  with `none` standing for NaN; pandas comparisons against NaN yield
  `False`, which the option-aware comparison helpers reproduce.
* prices, cash and holdings are exact rationals; the display rounding
  performed by Python's `round(x, n)` is modelled by `roundTo`
  (round-half-up at the n-th decimal; Python's float `round` differs only
  on exact decimal ties, which no claim exercises).
* metric formulas that involve `sqrt` and real exponentiation
  (`utils.calculate_metrics`) are modelled over `ℝ`; sample standard
  deviation of a list with fewer than two elements evaluates to `0`
  (pandas yields NaN there), and every guard of the source compares the
  result with `> 0`, on which `0` and NaN behave identically.
* a DataFrame column's presence is an explicit `Bool` argument; raised
  Python exceptions become `Except` errors, with `invalidInput` for the
  `ValueError`s the spec calls `InvalidInput` and a separate constructor
  for unclassified exceptions (pandas `KeyError` / `IndexError`).
-/

namespace Momentum

/-- Python `round(x, n)` modelled on `ℚ`: round to `n` decimal places. -/
def roundTo (n : ℕ) (x : ℚ) : ℚ := (round (x * 10 ^ n) : ℤ) / 10 ^ n

/-! ## Signal generator (`strategy.py`, `generate_signals`, lines 89-124)

One row of the indicator frame as consumed by `generate_signals`: the
columns the function reads (`sma_short`, `sma_long`, `momentum`,
`vol_ratio`), each possibly NaN, plus the close price carried through.
Whether the optional `vol_ratio` column exists at all is the `hasVol`
flag passed to the functions below. -/

structure SigRow where
  close : ℚ
  smaShort : Option ℚ
  smaLong : Option ℚ
  momentum : Option ℚ
  volRatio : Option ℚ
deriving DecidableEq, Repr

/-- pandas `>` on possibly-NaN cells: any comparison with NaN is `False`. -/
def oGt : Option ℚ → Option ℚ → Bool
  | some a, some b => b < a
  | _, _ => false

/-- `strategy.py` lines 97-105: `signal = 1` where the moving-average,
momentum and (when the volume column exists) volume conditions all hold,
else `0`.  `np.where` produces a plain number, never NaN. -/
def signalVal (hasVol : Bool) (thr : ℚ) (r : SigRow) : ℚ :=
  if oGt r.smaShort r.smaLong && oGt r.momentum (some thr)
      && (!hasVol || oGt r.volRatio (some (4/5))) then 1 else 0

/-- pandas `Series.shift(1)`: NaN first, then the values with the last
one dropped. -/
def shift1 (xs : List ℚ) : List (Option ℚ) :=
  match xs with
  | [] => []
  | _ :: _ => none :: xs.dropLast.map some

/-- NaN-propagating cell difference `current - previous`. -/
def oSub (p c : Option ℚ) : Option ℚ :=
  match p, c with
  | some a, some b => some (b - a)
  | _, _ => none

/-- pandas `Series.diff()` on a possibly-NaN series: NaN first, then
element-wise difference from the previous cell, NaN-propagating. -/
def diffList (xs : List (Option ℚ)) : List (Option ℚ) :=
  match xs with
  | [] => []
  | _ :: tail => none :: List.zipWith oSub xs tail

/-- `strategy.py` line 108: `position = signal.shift(1)`. -/
def positionsOf (hasVol : Bool) (thr : ℚ) (rows : List SigRow) : List (Option ℚ) :=
  shift1 (rows.map (signalVal hasVol thr))

/-- `strategy.py` line 111: `trade = position.diff()`. -/
def tradesOf (hasVol : Bool) (thr : ℚ) (rows : List SigRow) : List (Option ℚ) :=
  diffList (positionsOf hasVol thr rows)

/-- One output row of `generate_signals` after the `dropna`: the input
row together with its (non-NaN) signal, position and trade values. -/
structure SignalOut where
  row : SigRow
  signal : ℚ
  position : ℚ
  trade : ℚ
deriving DecidableEq, Repr

/-- `strategy.py` line 114: `dropna(subset=["position", "trade"])` over
the frame — keep a row exactly when its position and trade cells are
both non-NaN. -/
def keepRow (q : SigRow × ℚ × Option ℚ × Option ℚ) : Option SignalOut :=
  match q with
  | (r, s, some pv, some tv) => some ⟨r, s, pv, tv⟩
  | _ => none

def dropnaZip (rows : List SigRow) (sigs : List ℚ) (pos trd : List (Option ℚ)) :
    List SignalOut :=
  (rows.zip (sigs.zip (pos.zip trd))).filterMap keepRow

/-- `strategy.py` lines 94-114: compute the signal column, the lagged
position column, the trade column, and drop the rows where position or
trade is NaN. -/
def generate_signals (hasVol : Bool) (thr : ℚ) (rows : List SigRow) : List SignalOut :=
  let sigs := rows.map (signalVal hasVol thr)
  let pos := shift1 sigs
  let trd := diffList pos
  dropnaZip rows sigs pos trd

/-! ## Backtest simulator (`backtester.py`, `run_backtest`, lines 11-130) -/

/-- One input row of `run_backtest`: the columns the loop reads. -/
structure BtRow where
  close : ℚ
  position : ℚ
  trade : ℚ
deriving DecidableEq, Repr

/-- The mutable simulation state of `run_backtest` (lines 40-42):
`capital`, `holdings`, `entry_price`. -/
structure SimState where
  capital : ℚ
  holdings : ℚ
  entryPrice : ℚ
deriving DecidableEq, Repr

/-- Trade-log actions (the `action` field of lines 58-98). -/
inductive Action where
  | buy
  | sell
  | stopLoss
deriving DecidableEq, Repr

/-- One entry of the trade log (lines 58-65, 76-83, 91-98); `date` is the
row index standing in for the timestamp; the numeric fields carry the
`round(..., 2)` / `round(..., 6)` applied by the source. -/
structure TradeEvent where
  date : ℕ
  action : Action
  price : ℚ
  units : ℚ
  fee : ℚ
  pnl : ℚ
deriving DecidableEq, Repr

/-- `backtester.py` lines 50-67: the stop-loss check at the top of the
loop body.  Returns the state after the check and the events it logged. -/
def stopPhase (stopLoss : Option ℚ) (tc : ℚ) (date : ℕ) (price : ℚ)
    (s : SimState) : SimState × List TradeEvent :=
  match stopLoss with
  | none => (s, [])
  | some sl =>
      if 0 < s.holdings ∧ 0 < s.entryPrice then
        let currentReturn := (price - s.entryPrice) / s.entryPrice
        if currentReturn ≤ sl then
          let revenue := s.holdings * price
          let cost := revenue * tc
          (⟨revenue - cost, 0, 0⟩,
           [⟨date, .stopLoss, roundTo 2 price, roundTo 6 s.holdings,
             roundTo 2 cost,
             roundTo 2 (revenue - cost - s.holdings * s.entryPrice)⟩])
        else (s, [])
      else (s, [])

/-- `backtester.py` lines 69-100: the buy branch (`trade == 1 and
holdings == 0 and capital > 0`) and the sell branch (`elif trade == -1
and holdings > 0`). -/
def tradePhase (tc : ℚ) (date : ℕ) (price trade : ℚ)
    (s : SimState) : SimState × List TradeEvent :=
  if trade = 1 ∧ s.holdings = 0 ∧ 0 < s.capital then
    let fee := s.capital * tc
    let units := (s.capital - fee) / price
    (⟨0, units, price⟩,
     [⟨date, .buy, roundTo 2 price, roundTo 6 units, roundTo 2 fee, 0⟩])
  else if trade = -1 ∧ 0 < s.holdings then
    let revenue := s.holdings * price
    let fee := revenue * tc
    let pnl := revenue - fee - s.holdings * s.entryPrice
    (⟨revenue - fee, 0, 0⟩,
     [⟨date, .sell, roundTo 2 price, roundTo 6 s.holdings,
       roundTo 2 fee, roundTo 2 pnl⟩])
  else (s, [])

/-- One full iteration of the `for date, row in df.iterrows()` body
(lines 46-100): the stop-loss check followed by the buy/sell branches. -/
def step (stopLoss : Option ℚ) (tc : ℚ) (date : ℕ) (r : BtRow)
    (s : SimState) : SimState × List TradeEvent :=
  let p1 := stopPhase stopLoss tc date r.close s
  let p2 := tradePhase tc date r.close r.trade p1.1
  (p2.1, p1.2 ++ p2.2)

/-- One row of the `portfolio_values` accumulator (lines 102-111). -/
structure EquityPoint where
  date : ℕ
  portfolioValue : ℚ
  cash : ℚ
  holdings : ℚ
  price : ℚ
  inPosition : ℕ
deriving DecidableEq, Repr

/-- The whole simulation loop (lines 46-111): fold `step` over the rows,
recording an equity point for every row. -/
def runLoop (stopLoss : Option ℚ) (tc : ℚ) :
    ℕ → SimState → List BtRow → List EquityPoint × List TradeEvent
  | _, _, [] => ([], [])
  | date, s, r :: rest =>
      let st := step stopLoss tc date r s
      let pv := st.1.capital + st.1.holdings * r.close
      let ep : EquityPoint :=
        ⟨date, roundTo 2 pv, roundTo 2 st.1.capital, roundTo 6 st.1.holdings,
         roundTo 2 r.close, if 0 < st.1.holdings then 1 else 0⟩
      let tail := runLoop stopLoss tc (date + 1) st.1 rest
      (ep :: tail.1, st.2 ++ tail.2)

/-- The successive simulation states visited by the loop (`runLoop`'s
state component after each processed day). -/
def simStates (stopLoss : Option ℚ) (tc : ℚ) :
    ℕ → SimState → List BtRow → List SimState
  | _, _, [] => []
  | date, s, r :: rest =>
      let s' := (step stopLoss tc date r s).1
      s' :: simStates stopLoss tc (date + 1) s' rest

/-- The trade log of each single day of the loop, in order. -/
def dayEvents (stopLoss : Option ℚ) (tc : ℚ) :
    ℕ → SimState → List BtRow → List (List TradeEvent)
  | _, _, [] => []
  | date, s, r :: rest =>
      (step stopLoss tc date r s).2 ::
        dayEvents stopLoss tc (date + 1) (step stopLoss tc date r s).1 rest

/-- The SignalRecord contract of the spec's data model, relative to the
position `p` of the day before the series starts: every position is 0 or
1 and every trade cell is the day-over-day difference of the position
column.  `generate_signals` produces exactly such series. -/
def consistentFrom (p : ℚ) : List BtRow → Prop
  | [] => True
  | r :: rest =>
      (r.position = 0 ∨ r.position = 1) ∧ r.trade = r.position - p ∧
        consistentFrom r.position rest

/-- Errors raised by `run_backtest`: the explicit `ValueError`s of lines
30-36 (the spec's `InvalidInput`), and the pandas `KeyError` escaping
from `results.set_index("date")` on line 115 (unclassified). -/
inductive BtError where
  | invalidInput (msg : String)
  | keyError (msg : String)
deriving DecidableEq, Repr

/-- pandas `Series.pct_change()` on the portfolio values (line 116): NaN
first, then percent change versus the previous cell (the source never
hits a zero denominator on claims' inputs; Lean's total division stands
in for the float behaviour there). -/
def pctChangeQ (xs : List ℚ) : List (Option ℚ) :=
  match xs with
  | [] => []
  | _ :: tail => none :: List.zipWith (fun p c => some (c / p - 1)) xs tail

/-- The results frame built on lines 113-121: the equity points with the
derived `daily_return` column and the buy-and-hold benchmark. -/
structure BtResults where
  equity : List EquityPoint
  dailyReturn : List (Option ℚ)
  buyHold : List ℚ
deriving DecidableEq, Repr

/-- `backtester.py` lines 30-130: validate the input columns and the
capital, run the simulation loop, then build the results frame.  With
zero accumulated rows `pd.DataFrame([]).set_index("date")` on line 115
raises `KeyError: "date"`, modelled as `BtError.keyError`. -/
def run_backtest (hasClose hasPosition hasTrade : Bool) (rows : List BtRow)
    (initialCapital tc : ℚ) (stopLoss : Option ℚ) :
    Except BtError (BtResults × List TradeEvent) :=
  if !(hasClose && hasPosition && hasTrade) then
    .error (.invalidInput "Missing columns")
  else if initialCapital ≤ 0 then
    .error (.invalidInput "initial_capital must be positive")
  else
    let looped := runLoop stopLoss tc 0 ⟨initialCapital, 0, 0⟩ rows
    match looped.1 with
    | [] => .error (.keyError "date")
    | e :: es =>
        let pvs := (e :: es).map EquityPoint.portfolioValue
        let firstPrice := (rows.headD ⟨0, 0, 0⟩).close
        (.ok (⟨e :: es, pctChangeQ pvs,
              rows.map fun r => initialCapital * (r.close / firstPrice)⟩,
              looped.2))

/-! ## Metrics engine (`utils.py`, `calculate_metrics`, lines 14-103)

The formulas use `sqrt` and real exponents, so this part of the
embedding lives in `ℝ`.  `meanR` and `sampleStd` are pandas `mean` /
`std` (ddof = 1); on lists with fewer than two elements `sampleStd`
evaluates to `0` where pandas produces NaN — every use in the source
guards the value with `> 0`, on which the two agree. -/

noncomputable def meanR (xs : List ℝ) : ℝ := xs.sum / xs.length

noncomputable def sampleStd (xs : List ℝ) : ℝ :=
  Real.sqrt ((xs.map fun x => (x - meanR xs) ^ 2).sum / ((xs.length : ℝ) - 1))

/-- One row of the `results` frame as read by `calculate_metrics`:
`portfolio_value`, `daily_return` (NaN on the first row) and
`buy_hold_value`. -/
structure MEquityRow where
  portfolioValue : ℝ
  dailyReturn : Option ℝ
  buyHoldValue : ℝ

/-- One row of the trade log as read by `calculate_metrics`. -/
structure MTradeRow where
  action : Action
  pnl : ℝ

/-- `utils.py` line 26: `returns = results["daily_return"].dropna()`. -/
def returnsOf (results : List MEquityRow) : List ℝ :=
  results.filterMap MEquityRow.dailyReturn

/-- `utils.py` lines 35-36: `excess = returns - risk_free_rate / 365`. -/
noncomputable def excessOf (results : List MEquityRow) (riskFree : ℝ) : List ℝ :=
  (returnsOf results).map fun x => x - riskFree / 365

/-- `utils.py` line 40: `downside = excess[excess < 0]`. -/
noncomputable def downsideOf (results : List MEquityRow) (riskFree : ℝ) : List ℝ :=
  (excessOf results riskFree).filter fun x => decide (x < 0)

/-- `utils.py` line 41: `downside.std()` when any downside observation
exists, else the epsilon `1e-9`. -/
noncomputable def downsideStdOf (results : List MEquityRow) (riskFree : ℝ) : ℝ :=
  if 0 < (downsideOf results riskFree).length
  then sampleStd (downsideOf results riskFree)
  else 1 / 1000000000

/-- `utils.py` line 42: the Sortino ratio. -/
noncomputable def sortinoOf (results : List MEquityRow) (riskFree : ℝ) : ℝ :=
  if 0 < downsideStdOf results riskFree
  then Real.sqrt 365 * meanR (excessOf results riskFree) /
        downsideStdOf results riskFree
  else 0

/-- `utils.py` line 37: the Sharpe ratio. -/
noncomputable def sharpeOf (results : List MEquityRow) (riskFree : ℝ) : ℝ :=
  if 0 < sampleStd (excessOf results riskFree)
  then Real.sqrt 365 * meanR (excessOf results riskFree) /
        sampleStd (excessOf results riskFree)
  else 0

/-- pandas `Series.cummax` continued from a running maximum `m`. -/
noncomputable def cummaxFrom (m : ℝ) : List ℝ → List ℝ
  | [] => []
  | x :: xs => max m x :: cummaxFrom (max m x) xs

/-- `utils.py` line 45: `rolling_max = portfolio.cummax()`. -/
noncomputable def cummax (xs : List ℝ) : List ℝ :=
  match xs with
  | [] => []
  | x :: rest => x :: cummaxFrom x rest

/-- `utils.py` line 46: `drawdown = (portfolio - rolling_max) / rolling_max`. -/
noncomputable def drawdownOf (portfolio : List ℝ) : List ℝ :=
  List.zipWith (fun v m => (v - m) / m) portfolio (cummax portfolio)

/-- `Series.min()` of a nonempty series (`0` standing for the NaN pandas
returns on an empty one, which the source never hits). -/
noncomputable def listMin : List ℝ → ℝ
  | [] => 0
  | x :: rest => rest.foldl min x

/-- `utils.py` lines 50-56: the longest consecutive run of days spent
below the running peak.  The source groups `in_dd` by the running count
of `False`s and takes the largest group sum, which is exactly the length
of the longest consecutive `true` run. -/
def longestRun (bs : List Bool) : ℕ :=
  (bs.foldl (fun p b => if b then (p.1 + 1, max p.2 (p.1 + 1)) else (0, p.2))
    ((0, 0) : ℕ × ℕ)).2

/-- `utils.py` line 65: the closing trades (`SELL` / `STOP_LOSS`). -/
def closedOf (trades : List MTradeRow) : List MTradeRow :=
  trades.filter fun t => t.action = Action.sell || t.action = Action.stopLoss

/-- The report assembled on lines 85-101, with the numeric value behind
each formatted field. -/
structure MetricsReport where
  totalReturn : ℝ
  annualReturn : ℝ
  sharpe : ℝ
  sortino : ℝ
  calmar : ℝ
  maxDrawdown : ℝ
  maxDDDuration : ℕ
  annualVol : ℝ
  winRate : ℝ
  avgWin : ℝ
  avgLoss : ℝ
  profitFactor : ℝ
  totalTrades : ℕ
  buyHoldReturn : ℝ
  finalPortfolio : ℝ

/-- The only exception `calculate_metrics` can raise: the `IndexError`
from `portfolio.iloc[-1]` on line 30 when the equity series is empty. -/
inductive MetricsError where
  | indexError
deriving DecidableEq, Repr

/-- `utils.py` lines 14-103: compute every metric of the report.  The
source performs no length validation; the indexing on line 30 fails on
an empty frame, and every other quantity is produced by total formulas
with the fallbacks of lines 37, 41-42, 56, 59-74 and 83. -/
noncomputable def calculate_metrics (results : List MEquityRow)
    (trades : List MTradeRow) (riskFree : ℝ) :
    Except MetricsError MetricsReport :=
  match results with
  | [] => .error .indexError
  | r0 :: rest =>
      let rs := r0 :: rest
      let returns := returnsOf rs
      let portfolio := rs.map MEquityRow.portfolioValue
      let totalReturn := portfolio.getLastD 0 / r0.portfolioValue - 1
      let nDays := returns.length
      let annualReturn := (1 + totalReturn) ^ ((365 : ℝ) / (max nDays 1 : ℕ)) - 1
      let maxDrawdown := listMin (drawdownOf portfolio)
      let maxDDDuration :=
        longestRun ((drawdownOf portfolio).map fun d => decide (d < 0))
      let closed := closedOf trades
      let wins := closed.filter fun t => decide (0 < t.pnl)
      let losses := closed.filter fun t => decide (t.pnl ≤ 0)
      let haveClosed := 0 < trades.length ∧ 0 < closed.length
      let winRate :=
        if haveClosed then (wins.length : ℝ) / closed.length else 0
      let avgWin :=
        if haveClosed ∧ 0 < wins.length then meanR (wins.map MTradeRow.pnl) else 0
      let avgLoss :=
        if haveClosed ∧ 0 < losses.length then meanR (losses.map MTradeRow.pnl) else 0
      let totalWins :=
        if haveClosed ∧ 0 < wins.length then (wins.map MTradeRow.pnl).sum else 0
      let totalLosses :=
        if haveClosed ∧ 0 < losses.length then |(losses.map MTradeRow.pnl).sum|
        else 1 / 1000000000
      let profitFactor := if haveClosed then totalWins / totalLosses else 0
      .ok
        { totalReturn := totalReturn
          annualReturn := annualReturn
          sharpe := sharpeOf rs riskFree
          sortino := sortinoOf rs riskFree
          calmar := if maxDrawdown ≠ 0 then annualReturn / |maxDrawdown| else 0
          maxDrawdown := maxDrawdown
          maxDDDuration := maxDDDuration
          annualVol := sampleStd returns * Real.sqrt 365
          winRate := winRate
          avgWin := avgWin
          avgLoss := avgLoss
          profitFactor := profitFactor
          totalTrades := trades.length
          buyHoldReturn :=
            (rs.map MEquityRow.buyHoldValue).getLastD 0 / r0.buyHoldValue - 1
          finalPortfolio := portfolio.getLastD 0 }

/-! ## Indicator engine (`strategy.py`, `compute_indicators`, lines 10-62)

The Bollinger computation takes a square root, so this part also lives
in `ℝ`.  A cell that pandas would fill with NaN (rolling window without
enough history, `pct_change` lookback before the start) is `none`. -/

/-- One input row of `compute_indicators`: a close price and a volume
(the latter only meaningful when the `hasVolume` flag is set). -/
structure PriceRow where
  close : ℝ
  volume : ℝ

/-- NaN-propagating binary operation on possibly-NaN cells. -/
def oMap2 (f : ℝ → ℝ → ℝ) : Option ℝ → Option ℝ → Option ℝ
  | some a, some b => some (f a b)
  | _, _ => none

/-- pandas `rolling(window=w, min_periods=w).mean()` at index `i`. -/
noncomputable def rollingMeanAt (w : ℕ) (xs : List ℝ) (i : ℕ) : Option ℝ :=
  if w ≤ i + 1 ∧ i < xs.length then some (meanR ((xs.drop (i + 1 - w)).take w))
  else none

/-- pandas `rolling(window=w).std()` at index `i` (ddof = 1). -/
noncomputable def rollingStdAt (w : ℕ) (xs : List ℝ) (i : ℕ) : Option ℝ :=
  if w ≤ i + 1 ∧ i < xs.length then some (sampleStd ((xs.drop (i + 1 - w)).take w))
  else none

/-- pandas `pct_change(periods=m)` at index `i`. -/
noncomputable def pctChangeAt (m : ℕ) (xs : List ℝ) (i : ℕ) : Option ℝ :=
  if m ≤ i ∧ i < xs.length then some (xs.getD i 0 / xs.getD (i - m) 0 - 1)
  else none

/-- One output row of `compute_indicators` (the input columns plus the
indicator columns added on lines 40-60). -/
structure IndRow where
  close : ℝ
  volume : ℝ
  smaShort : Option ℝ
  smaLong : Option ℝ
  momentum : Option ℝ
  bbMid : Option ℝ
  bbUpper : Option ℝ
  bbLower : Option ℝ
  bbWidth : Option ℝ
  volMa : Option ℝ
  volRatio : Option ℝ
  dailyReturn : Option ℝ

/-- The `ValueError`s of `compute_indicators` lines 29-35 (the spec's
`InvalidInput`). -/
inductive IndError where
  | invalidInput (msg : String)
deriving DecidableEq, Repr

/-- `strategy.py` lines 10-62: validate the close column and the series
length against the long window, then add the indicator columns.  The
function performs no comparison between the short and the long window. -/
noncomputable def compute_indicators (hasClose hasVolume : Bool)
    (rows : List PriceRow) (shortWindow longWindow momentumPeriod : ℕ) :
    Except IndError (List IndRow) :=
  if !hasClose then
    .error (.invalidInput "DataFrame must contain a close column")
  else if rows.length < longWindow then
    .error (.invalidInput "Need at least long_window data points")
  else
    let closes := rows.map PriceRow.close
    let vols := rows.map PriceRow.volume
    .ok ((List.range rows.length).map fun i =>
      let bbMid := rollingMeanAt 20 closes i
      let bbStd := rollingStdAt 20 closes i
      let bbUpper := oMap2 (fun m s => m + 2 * s) bbMid bbStd
      let bbLower := oMap2 (fun m s => m - 2 * s) bbMid bbStd
      let volMa := if hasVolume then rollingMeanAt 20 vols i else none
      { close := closes.getD i 0
        volume := vols.getD i 0
        smaShort := rollingMeanAt shortWindow closes i
        smaLong := rollingMeanAt longWindow closes i
        momentum := (pctChangeAt momentumPeriod closes i).map (· * 100)
        bbMid := bbMid
        bbUpper := bbUpper
        bbLower := bbLower
        bbWidth := oMap2 (fun d m => d / m) (oMap2 (fun u l => u - l) bbUpper bbLower) bbMid
        volMa := volMa
        volRatio := if hasVolume then volMa.map (fun m => vols.getD i 0 / m) else none
        dailyReturn := pctChangeAt 1 closes i })

/-! ## Theorems for the claims -/

/-- C9: for an ENTER executed while flat with cash `c`, transaction-cost
fraction `t` and price `p`, the fee equals `c*t`, the units purchased
equal `(c - c*t)/p`, cash becomes exactly zero and the entry price is
recorded; the logged event is a BUY with fee `c*t` and zero P&L. -/
theorem enter_accounting (tc price : ℚ) (date : ℕ) (s : SimState)
    (hflat : s.holdings = 0) (hcap : 0 < s.capital) :
    tradePhase tc date price 1 s =
      (⟨0, (s.capital - s.capital * tc) / price, price⟩,
       [⟨date, .buy, roundTo 2 price,
         roundTo 6 ((s.capital - s.capital * tc) / price),
         roundTo 2 (s.capital * tc), 0⟩]) := by
  unfold tradePhase
  rw [if_pos ⟨rfl, hflat, hcap⟩]

/-- C9 witness: with cash 10000, cost 0.001 and price 100 the purchase
buys 99.9 units, charges a fee of 10 and zeroes the cash. -/
theorem enter_accounting_witness :
    (⟨10000, 0, 0⟩ : SimState).holdings = 0 ∧ 0 < (⟨10000, 0, 0⟩ : SimState).capital ∧
    tradePhase (1/1000) 0 100 1 ⟨10000, 0, 0⟩ =
      (⟨0, 999/10, 100⟩, [⟨0, .buy, 100, 999/10, 10, 0⟩]) := by
  refine ⟨rfl, by norm_num, ?_⟩
  rw [enter_accounting (1/1000) 100 0 ⟨10000, 0, 0⟩ rfl (by norm_num)]
  norm_num [roundTo, round_eq]

/-- C2: when a position is open (positive holdings and entry price), a
stop-loss is supplied and the return since entry is at or below it
(inclusive comparison), the stop-loss branch liquidates all units at the
day's price, charges the fee on the proceeds, logs a STOP_LOSS event
with realized P&L `proceeds - fee - units*entry`, and resets holdings
and entry price to zero. -/
theorem stoploss_fires (sl tc price : ℚ) (date : ℕ) (s : SimState)
    (hh : 0 < s.holdings) (he : 0 < s.entryPrice)
    (hret : (price - s.entryPrice) / s.entryPrice ≤ sl) :
    stopPhase (some sl) tc date price s =
      (⟨s.holdings * price - s.holdings * price * tc, 0, 0⟩,
       [⟨date, .stopLoss, roundTo 2 price, roundTo 6 s.holdings,
         roundTo 2 (s.holdings * price * tc),
         roundTo 2 (s.holdings * price - s.holdings * price * tc -
            s.holdings * s.entryPrice)⟩]) := by
  simp only [stopPhase]
  rw [if_pos ⟨hh, he⟩, if_pos hret]

/-- C2 witness: a position of 99.9 units entered at 100 with stop-loss
-0.05 and today's price 95 sits exactly on the boundary
(`current_return = stop_loss`) and triggers the exit. -/
theorem stoploss_fires_witness :
    0 < (⟨0, 999/10, 100⟩ : SimState).holdings ∧
    0 < (⟨0, 999/10, 100⟩ : SimState).entryPrice ∧
    ((95 : ℚ) - 100) / 100 ≤ -(5/100) ∧
    stopPhase (some (-(5/100))) (1/1000) 0 95 ⟨0, 999/10, 100⟩ =
      (⟨94810095/10000, 0, 0⟩,
       [⟨0, .stopLoss, 95, 999/10, 949/100, -(50899/100)⟩]) := by
  refine ⟨by norm_num, by norm_num, by norm_num, ?_⟩
  rw [stoploss_fires (-(5/100)) (1/1000) 95 0 ⟨0, 999/10, 100⟩
    (by norm_num) (by norm_num) (by norm_num)]
  norm_num [roundTo, round_eq]

/-- C10: on the zero-row input that has all required columns the
backtester passes validation (no `InvalidInput`) and then fails with the
unclassified `KeyError` raised while building the results frame from
zero accumulated rows. -/
theorem run_backtest_empty_input (capital tc : ℚ) (stopLoss : Option ℚ)
    (hc : 0 < capital) :
    run_backtest true true true [] capital tc stopLoss =
      .error (.keyError "date") := by
  unfold run_backtest
  simp [runLoop, not_le.mpr hc]

/-- C10 witness: the empty series with capital 10000, cost 0.001 and a
stop-loss of -0.05 produces the `KeyError`, not an `InvalidInput`. -/
theorem run_backtest_empty_input_witness :
    0 < (10000 : ℚ) ∧
    run_backtest true true true [] 10000 (1/1000) (some (-(1/20))) =
      .error (.keyError "date") :=
  ⟨by norm_num, run_backtest_empty_input 10000 (1/1000) (some (-(1/20))) (by norm_num)⟩

/-- C4 counterexample: an equity series with a single point — fewer than
2 points — makes the metrics engine return a report; no error of any
kind is raised. -/
theorem calculate_metrics_one_point_returns_report :
    ∃ m, calculate_metrics [⟨100, none, 100⟩] [] (4/100) = .ok m :=
  ⟨_, rfl⟩

/-- C4 amended: the metrics engine performs no length validation; it
fails only on the empty equity series, and then with the unclassified
indexing error of `portfolio.iloc[-1]`, never an InsufficientData
error.  Any nonempty series — including a 1-point one — yields a
report. -/
theorem calculate_metrics_fails_only_on_empty (results : List MEquityRow)
    (trades : List MTradeRow) (riskFree : ℝ) :
    (calculate_metrics results trades riskFree = .error .indexError ↔ results = [])
    ∧ ((∃ m, calculate_metrics results trades riskFree = .ok m) ↔ results ≠ []) := by
  cases results with
  | nil => simp [calculate_metrics]
  | cons r rest =>
      refine ⟨?_, ?_⟩
      · simp [calculate_metrics]
      · exact ⟨fun _ => by simp, fun _ => ⟨_, rfl⟩⟩

/-- C7 counterexample: `compute_indicators` accepts a short window of 3
together with a long window of 2 (short ≥ long) on a 2-point series and
produces an indicator frame — no `InvalidInput` is raised. -/
theorem compute_indicators_accepts_short_ge_long :
    2 ≤ 3 ∧
    ∃ out, compute_indicators true false [⟨100, 0⟩, ⟨101, 0⟩] 3 2 14 = .ok out :=
  ⟨by norm_num, ⟨_, rfl⟩⟩

/-- C7 amended: the indicator engine itself never compares the two
windows: for every pair with short ≥ long it succeeds whenever the close
column is present and the series is at least as long as the long window.
The short-versus-long rejection lives only in the web layer
(`app.py` lines 148-149), which refuses the request before invoking the
engine. -/
theorem compute_indicators_no_window_relation_check (hasVolume : Bool)
    (rows : List PriceRow) (shortWindow longWindow momentumPeriod : ℕ)
    (_hw : longWindow ≤ shortWindow) (hl : longWindow ≤ rows.length) :
    ∃ out, compute_indicators true hasVolume rows shortWindow longWindow
      momentumPeriod = .ok out := by
  unfold compute_indicators
  rw [if_neg (by simp), if_neg (Nat.not_lt.mpr hl)]
  exact ⟨_, rfl⟩

/-- C7 amended witness: short window 5, long window 4, four data
points. -/
theorem compute_indicators_no_window_relation_check_witness :
    4 ≤ 5 ∧ 4 ≤ ([⟨10, 0⟩, ⟨11, 0⟩, ⟨12, 0⟩, ⟨13, 0⟩] : List PriceRow).length ∧
    ∃ out, compute_indicators true true [⟨10, 0⟩, ⟨11, 0⟩, ⟨12, 0⟩, ⟨13, 0⟩]
      5 4 14 = .ok out :=
  ⟨by norm_num, by norm_num,
    compute_indicators_no_window_relation_check true _ 5 4 14 (by norm_num) (by norm_num)⟩

/-- Every event the stop-loss check logs is a STOP_LOSS. -/
lemma stopPhase_event_action (sl : Option ℚ) (tc : ℚ) (d : ℕ) (p : ℚ)
    (s : SimState) : ∀ e ∈ (stopPhase sl tc d p s).2, e.action = .stopLoss := by
  intro e he
  cases sl with
  | none => simp [stopPhase] at he
  | some v =>
      simp only [stopPhase] at he
      by_cases h1 : 0 < s.holdings ∧ 0 < s.entryPrice
      · rw [if_pos h1] at he
        by_cases h2 : (p - s.entryPrice) / s.entryPrice ≤ v
        · rw [if_pos h2] at he
          simp at he
          simp [he]
        · rw [if_neg h2] at he
          simp at he
      · rw [if_neg h1] at he
        simp at he

/-- If the stop-loss check logged anything, it zeroed the holdings. -/
lemma stopPhase_fired_holdings (sl : Option ℚ) (tc : ℚ) (d : ℕ) (p : ℚ)
    (s : SimState) (h : (stopPhase sl tc d p s).2 ≠ []) :
    (stopPhase sl tc d p s).1.holdings = 0 := by
  cases sl with
  | none => simp [stopPhase] at h
  | some v =>
      simp only [stopPhase] at h ⊢
      by_cases h1 : 0 < s.holdings ∧ 0 < s.entryPrice
      · rw [if_pos h1] at h ⊢
        by_cases h2 : (p - s.entryPrice) / s.entryPrice ≤ v
        · rw [if_pos h2]
        · rw [if_neg h2] at h
          simp at h
      · rw [if_neg h1] at h
        simp at h

/-- Every event the buy/sell branches log is either a BUY fired from a
flat state or a SELL fired while holding units. -/
lemma tradePhase_event_cases (tc : ℚ) (d : ℕ) (p t : ℚ) (s : SimState) :
    ∀ e ∈ (tradePhase tc d p t s).2,
      (e.action = .buy ∧ s.holdings = 0) ∨ (e.action = .sell ∧ 0 < s.holdings) := by
  intro e he
  unfold tradePhase at he
  by_cases h1 : t = 1 ∧ s.holdings = 0 ∧ 0 < s.capital
  · rw [if_pos h1] at he
    simp at he
    exact Or.inl ⟨by simp [he], h1.2.1⟩
  · rw [if_neg h1] at he
    by_cases h2 : t = -1 ∧ 0 < s.holdings
    · rw [if_pos h2] at he
      simp at he
      exact Or.inr ⟨by simp [he], h2.2⟩
    · rw [if_neg h2] at he
      simp at he

/-- C3 counterexample: on an input whose trade column is an entry on two
consecutive days with a crashing price, day 1 logs both a STOP_LOSS and
a BUY: the simulator's buy branch runs regardless of whether the
stop-loss fired on the same day. -/
theorem stoploss_and_enter_same_day :
    ((runLoop (some (-(1/20))) 0 0 ⟨10000, 0, 0⟩
        [⟨100, 1, 1⟩, ⟨50, 1, 1⟩]).2.map fun e => (e.date, e.action)) =
      [(0, .buy), (1, .stopLoss), (1, .buy)] := by
  norm_num [runLoop, step, stopPhase, tradePhase]

/-- A stop-loss day never also logs a SELL: the forced exit zeroes the
holdings, which the sell branch requires to be positive. -/
lemma stoploss_day_records_no_sell (sl : Option ℚ) (tc : ℚ) (date : ℕ)
    (r : BtRow) (s : SimState)
    (hstop : ∃ e ∈ (step sl tc date r s).2, e.action = .stopLoss) :
    ∀ e ∈ (step sl tc date r s).2, e.action ≠ .sell := by
  obtain ⟨e0, he0, ha0⟩ := hstop
  simp only [step, List.mem_append] at he0
  have hfired : (stopPhase sl tc date r.close s).2 ≠ [] := by
    rcases he0 with h | h
    · intro hnil
      rw [hnil] at h
      simp at h
    · rcases tradePhase_event_cases tc date r.close r.trade
        (stopPhase sl tc date r.close s).1 e0 h with ⟨hb, _⟩ | ⟨hb, _⟩ <;>
        rw [hb] at ha0 <;> exact Action.noConfusion ha0
  have hflat := stopPhase_fired_holdings sl tc date r.close s hfired
  intro e he
  simp only [step, List.mem_append] at he
  rcases he with h | h
  · rw [stopPhase_event_action sl tc date r.close s e h]
    exact fun hc => Action.noConfusion hc
  · rcases tradePhase_event_cases tc date r.close r.trade
      (stopPhase sl tc date r.close s).1 e h with ⟨hb, _⟩ | ⟨_, hpos⟩
    · rw [hb]
      exact fun hc => Action.noConfusion hc
    · rw [hflat] at hpos
      exact absurd hpos (lt_irrefl 0)

/-- The stop-loss check either does nothing — state and log untouched —
or fires: it zeroes the holdings, requires them to have been positive,
and logs exactly one STOP_LOSS event. -/
lemma stopPhase_dichotomy (sl : Option ℚ) (tc : ℚ) (d : ℕ) (p : ℚ)
    (s : SimState) :
    ((stopPhase sl tc d p s).1 = s ∧ (stopPhase sl tc d p s).2 = []) ∨
    ((stopPhase sl tc d p s).1.holdings = 0 ∧ 0 < s.holdings ∧
      ∃ ev, (stopPhase sl tc d p s).2 = [ev] ∧ ev.action = .stopLoss) := by
  cases sl with
  | none => exact Or.inl ⟨rfl, rfl⟩
  | some v =>
      simp only [stopPhase]
      by_cases h1 : 0 < s.holdings ∧ 0 < s.entryPrice
      · rw [if_pos h1]
        by_cases h2 : (p - s.entryPrice) / s.entryPrice ≤ v
        · rw [if_pos h2]
          exact Or.inr ⟨rfl, h1.1, ⟨_, rfl, rfl⟩⟩
        · rw [if_neg h2]
          exact Or.inl ⟨rfl, rfl⟩
      · rw [if_neg h1]
        exact Or.inl ⟨rfl, rfl⟩

/-- When neither the buy nor the sell guard holds, the buy/sell branches
leave the state unchanged and log nothing. -/
lemma tradePhase_noop (tc : ℚ) (d : ℕ) (p t : ℚ) (s : SimState)
    (hb : ¬(t = 1 ∧ s.holdings = 0 ∧ 0 < s.capital))
    (hs : ¬(t = -1 ∧ 0 < s.holdings)) :
    tradePhase tc d p t s = (s, []) := by
  unfold tradePhase
  rw [if_neg hb, if_neg hs]

/-- On a day that respects the SignalRecord contract (position 0 or 1,
trade = position difference), a day whose stop-loss fires logs exactly
the STOP_LOSS event, and positive holdings after the day force the
day's position to be 1. -/
lemma step_consistent_stop_only (sl : Option ℚ) (tc : ℚ) (d : ℕ) (r : BtRow)
    (s : SimState) (p : ℚ) (hpos : r.position = 0 ∨ r.position = 1)
    (htr : r.trade = r.position - p) (hp : p = 0 ∨ p = 1)
    (hinv : 0 < s.holdings → p = 1) :
    ((∃ e ∈ (step sl tc d r s).2, e.action = .stopLoss) →
      (step sl tc d r s).2.map TradeEvent.action = [.stopLoss])
    ∧ (0 < (step sl tc d r s).1.holdings → r.position = 1) := by
  rcases stopPhase_dichotomy sl tc d r.close s with ⟨hs1, he1⟩ | ⟨hh0, hpos0, ev, hev, hact⟩
  · constructor
    · rintro ⟨e, he, hae⟩
      simp only [step, he1, List.nil_append] at he
      rcases tradePhase_event_cases tc d r.close r.trade
        (stopPhase sl tc d r.close s).1 e he with ⟨hb, _⟩ | ⟨hb, _⟩ <;>
        rw [hb] at hae <;> exact Action.noConfusion hae
    · intro hh
      have hstep1 : (step sl tc d r s).1 =
          (tradePhase tc d r.close r.trade s).1 := by
        simp only [step, hs1]
      rw [hstep1] at hh
      by_cases hbuy : r.trade = 1 ∧ s.holdings = 0 ∧ 0 < s.capital
      · rcases hpos with h | h
        · exfalso
          have h1 : (1 : ℚ) = 0 - p := by rw [← h, ← htr, hbuy.1]
          rcases hp with h2 | h2 <;> rw [h2] at h1 <;> norm_num at h1
        · exact h
      · by_cases hsell : r.trade = -1 ∧ 0 < s.holdings
        · exfalso
          have : (tradePhase tc d r.close r.trade s).1.holdings = 0 := by
            unfold tradePhase
            rw [if_neg hbuy, if_pos hsell]
          rw [this] at hh
          exact absurd hh (lt_irrefl 0)
        · rw [tradePhase_noop tc d r.close r.trade s hbuy hsell] at hh
          have hp1 := hinv hh
          rcases hpos with h | h
          · exfalso
            apply hsell
            refine ⟨?_, hh⟩
            rw [htr, h, hp1]
            norm_num
          · exact h
  · have hp1 := hinv hpos0
    have htr01 : r.trade = -1 ∨ r.trade = 0 := by
      rcases hpos with h | h
      · left
        rw [htr, h, hp1]
        norm_num
      · right
        rw [htr, h, hp1]
        norm_num
    have hbuy : ¬(r.trade = 1 ∧ (stopPhase sl tc d r.close s).1.holdings = 0 ∧
        0 < (stopPhase sl tc d r.close s).1.capital) := by
      rintro ⟨h1, _, _⟩
      rcases htr01 with h | h <;> rw [h] at h1 <;> norm_num at h1
    have hsell : ¬(r.trade = -1 ∧ 0 < (stopPhase sl tc d r.close s).1.holdings) := by
      rintro ⟨_, h2⟩
      rw [hh0] at h2
      exact absurd h2 (lt_irrefl 0)
    have hnoop := tradePhase_noop tc d r.close r.trade
      (stopPhase sl tc d r.close s).1 hbuy hsell
    constructor
    · intro _
      simp only [step, hev, hnoop, List.append_nil, List.map_cons, List.map_nil, hact]
    · intro hh
      exfalso
      have hstep1 : (step sl tc d r s).1 = (stopPhase sl tc d r.close s).1 := by
        simp only [step, hnoop]
      rw [hstep1, hh0] at hh
      exact absurd hh (lt_irrefl 0)

/-- C3 amended: a stop-loss day never also records a SELL, and on every
input obeying the SignalRecord contract (trade = day-over-day difference
of a 0/1 position column, as `generate_signals` produces) a stop-loss
day records nothing but the STOP_LOSS.  The entry branch, however, is
not an alternative to the stop-loss step — it is evaluated even when the
stop-loss fired, and on accepted inputs outside that contract the same
day can record both a STOP_LOSS and a BUY. -/
theorem stoploss_day_exclusive (sl : Option ℚ) (tc : ℚ) :
    (∀ (date : ℕ) (r : BtRow) (s : SimState),
        (∃ e ∈ (step sl tc date r s).2, e.action = .stopLoss) →
        ∀ e ∈ (step sl tc date r s).2, e.action ≠ .sell)
    ∧ ∀ (rows : List BtRow) (p : ℚ) (d : ℕ) (s : SimState),
        consistentFrom p rows → (p = 0 ∨ p = 1) → (0 < s.holdings → p = 1) →
        ∀ evs ∈ dayEvents sl tc d s rows,
          (∃ e ∈ evs, e.action = .stopLoss) →
          evs.map TradeEvent.action = [.stopLoss] := by
  refine ⟨fun date r s hstop => stoploss_day_records_no_sell sl tc date r s hstop, ?_⟩
  intro rows
  induction rows with
  | nil =>
      intro p d s _ _ _ evs hmem
      simp [dayEvents] at hmem
  | cons r rest ih =>
      intro p d s hcons hp hinv evs hmem
      obtain ⟨hpos, htr, hrest⟩ := hcons
      have hstep := step_consistent_stop_only sl tc d r s p hpos htr hp hinv
      simp only [dayEvents, List.mem_cons] at hmem
      rcases hmem with h | h
      · rw [h]
        exact hstep.1
      · exact ih r.position (d + 1) (step sl tc d r s).1 hrest hpos hstep.2 evs h

/-- C3 amended witness: a contract-respecting series that enters at 100
and stops out at 94; the stop-loss day logs exactly the STOP_LOSS. -/
theorem stoploss_day_exclusive_witness :
    consistentFrom 0 [⟨100, 1, 1⟩, ⟨94, 1, 0⟩] ∧
    ((0 : ℚ) = 0 ∨ (0 : ℚ) = 1) ∧
    (0 < (⟨10000, 0, 0⟩ : SimState).holdings → (0 : ℚ) = 1) ∧
    ∀ evs ∈ dayEvents (some (-(1/20))) 0 0 ⟨10000, 0, 0⟩
        [⟨100, 1, 1⟩, ⟨94, 1, 0⟩],
      (∃ e ∈ evs, e.action = .stopLoss) →
      evs.map TradeEvent.action = [.stopLoss] := by
  have hcons : consistentFrom 0 [⟨100, 1, 1⟩, ⟨94, 1, 0⟩] := by
    refine ⟨Or.inr rfl, by norm_num, Or.inr rfl, by norm_num, trivial⟩
  exact ⟨hcons, Or.inl rfl, fun h => absurd h (lt_irrefl 0),
    (stoploss_day_exclusive (some (-(1/20))) 0).2
      [⟨100, 1, 1⟩, ⟨94, 1, 0⟩] 0 0 ⟨10000, 0, 0⟩ hcons (Or.inl rfl)
      (fun h => absurd h (lt_irrefl 0))⟩

/-- The stop-loss check keeps cash and holdings non-negative. -/
lemma stopPhase_state_nonneg (sl : Option ℚ) (tc : ℚ) (d : ℕ) (p : ℚ)
    (s : SimState) (ht1 : tc < 1) (hp : 0 < p)
    (hc : 0 ≤ s.capital) (hh : 0 ≤ s.holdings) :
    0 ≤ (stopPhase sl tc d p s).1.capital ∧ 0 ≤ (stopPhase sl tc d p s).1.holdings := by
  cases sl with
  | none => exact ⟨hc, hh⟩
  | some v =>
      simp only [stopPhase]
      by_cases h1 : 0 < s.holdings ∧ 0 < s.entryPrice
      · rw [if_pos h1]
        by_cases h2 : (p - s.entryPrice) / s.entryPrice ≤ v
        · rw [if_pos h2]
          refine ⟨?_, le_refl 0⟩
          have hrev : 0 ≤ s.holdings * p := mul_nonneg hh hp.le
          show 0 ≤ s.holdings * p - s.holdings * p * tc
          nlinarith [mul_nonneg hrev (sub_nonneg.mpr ht1.le)]
        · rw [if_neg h2]
          exact ⟨hc, hh⟩
      · rw [if_neg h1]
        exact ⟨hc, hh⟩

/-- The buy/sell branches keep cash and holdings non-negative. -/
lemma tradePhase_state_nonneg (tc : ℚ) (d : ℕ) (p t : ℚ) (s : SimState)
    (ht1 : tc < 1) (hp : 0 < p) (hc : 0 ≤ s.capital) (hh : 0 ≤ s.holdings) :
    0 ≤ (tradePhase tc d p t s).1.capital ∧ 0 ≤ (tradePhase tc d p t s).1.holdings := by
  unfold tradePhase
  by_cases h1 : t = 1 ∧ s.holdings = 0 ∧ 0 < s.capital
  · rw [if_pos h1]
    refine ⟨le_refl 0, div_nonneg ?_ hp.le⟩
    nlinarith [mul_nonneg hc (sub_nonneg.mpr ht1.le)]
  · rw [if_neg h1]
    by_cases h2 : t = -1 ∧ 0 < s.holdings
    · rw [if_pos h2]
      refine ⟨?_, le_refl 0⟩
      have hrev : 0 ≤ s.holdings * p := mul_nonneg hh hp.le
      show 0 ≤ s.holdings * p - s.holdings * p * tc
      nlinarith [mul_nonneg hrev (sub_nonneg.mpr ht1.le)]
    · rw [if_neg h2]
      exact ⟨hc, hh⟩

/-- One simulation day keeps cash and holdings non-negative. -/
lemma step_state_nonneg (sl : Option ℚ) (tc : ℚ) (d : ℕ) (r : BtRow)
    (s : SimState) (ht1 : tc < 1) (hp : 0 < r.close)
    (hc : 0 ≤ s.capital) (hh : 0 ≤ s.holdings) :
    0 ≤ (step sl tc d r s).1.capital ∧ 0 ≤ (step sl tc d r s).1.holdings := by
  have h1 := stopPhase_state_nonneg sl tc d r.close s ht1 hp hc hh
  have h2 := tradePhase_state_nonneg tc d r.close r.trade
    (stopPhase sl tc d r.close s).1 ht1 hp h1.1 h1.2
  simpa [step] using h2

/-- The non-negativity invariant propagates through the whole loop. -/
lemma simStates_nonneg (sl : Option ℚ) (tc : ℚ) (ht1 : tc < 1) :
    ∀ (rows : List BtRow) (d : ℕ) (s : SimState),
      (∀ r ∈ rows, 0 < r.close) → 0 ≤ s.capital → 0 ≤ s.holdings →
      ∀ st ∈ simStates sl tc d s rows, 0 ≤ st.capital ∧ 0 ≤ st.holdings := by
  intro rows
  induction rows with
  | nil =>
      intro d s _ _ _ st hst
      simp [simStates] at hst
  | cons r rest ih =>
      intro d s hp hc hh st hst
      simp only [simStates] at hst
      have hpr : 0 < r.close := hp r (List.mem_cons_self r rest)
      have hs' := step_state_nonneg sl tc d r s ht1 hpr hc hh
      rcases List.mem_cons.1 hst with h | h
      · rw [h]
        exact hs'
      · exact ih (d + 1) (step sl tc d r s).1
          (fun x hx => hp x (List.mem_cons_of_mem r hx)) hs'.1 hs'.2 st h

/-- A BUY event can only come out of a day whose state is flat once the
stop-loss check has run. -/
lemma step_buy_requires_flat (sl : Option ℚ) (tc : ℚ) (d : ℕ) (r : BtRow)
    (s : SimState) (hbuy : ∃ e ∈ (step sl tc d r s).2, e.action = .buy) :
    (stopPhase sl tc d r.close s).1.holdings = 0 := by
  obtain ⟨e, he, ha⟩ := hbuy
  simp only [step, List.mem_append] at he
  rcases he with h | h
  · rw [stopPhase_event_action sl tc d r.close s e h] at ha
    exact Action.noConfusion ha
  · rcases tradePhase_event_cases tc d r.close r.trade
      (stopPhase sl tc d r.close s).1 e h with ⟨_, hf⟩ | ⟨hb, _⟩
    · exact hf
    · rw [hb] at ha
      exact Action.noConfusion ha

/-- C8: with positive prices, capital > 0 and a transaction-cost
fraction in [0, 1), the simulation state keeps `cash ≥ 0` and
`holdings ≥ 0` after every processed day, for any stop-loss parameter;
and a BUY only ever fires from a flat state (no pyramiding). -/
theorem backtest_invariants (sl : Option ℚ) (tc : ℚ) (ht0 : 0 ≤ tc)
    (ht1 : tc < 1) (rows : List BtRow) (hp : ∀ r ∈ rows, 0 < r.close)
    (initialCapital : ℚ) (hc : 0 < initialCapital) :
    (∀ st ∈ simStates sl tc 0 ⟨initialCapital, 0, 0⟩ rows,
        0 ≤ st.capital ∧ 0 ≤ st.holdings) ∧
    ∀ (d : ℕ) (r : BtRow) (s : SimState),
      (∃ e ∈ (step sl tc d r s).2, e.action = .buy) →
      (stopPhase sl tc d r.close s).1.holdings = 0 := by
  refine ⟨?_, fun d r s => step_buy_requires_flat sl tc d r s⟩
  have := ht0
  exact simStates_nonneg sl tc ht1 rows 0 ⟨initialCapital, 0, 0⟩ hp hc.le (le_refl 0)

/-- C8 witness: a 2-day positive-price series with capital 10000, cost
0.001 and stop-loss -0.05. -/
theorem backtest_invariants_witness :
    (0 ≤ (1/1000 : ℚ) ∧ (1/1000 : ℚ) < 1 ∧
      (∀ r ∈ ([⟨100, 1, 1⟩, ⟨90, 1, -1⟩] : List BtRow), 0 < r.close) ∧
      0 < (10000 : ℚ)) ∧
    ((∀ st ∈ simStates (some (-(1/20))) (1/1000) 0 ⟨10000, 0, 0⟩
        [⟨100, 1, 1⟩, ⟨90, 1, -1⟩], 0 ≤ st.capital ∧ 0 ≤ st.holdings) ∧
     ∀ (d : ℕ) (r : BtRow) (s : SimState),
       (∃ e ∈ (step (some (-(1/20))) (1/1000) d r s).2, e.action = .buy) →
       (stopPhase (some (-(1/20))) (1/1000) d r.close s).1.holdings = 0) := by
  have hrows : ∀ r ∈ ([⟨100, 1, 1⟩, ⟨90, 1, -1⟩] : List BtRow), 0 < r.close := by
    intro r hr
    rcases List.mem_cons.1 hr with h | h
    · rw [h]; norm_num
    · simp at h
      rw [h]; norm_num
  exact ⟨⟨by norm_num, by norm_num, hrows, by norm_num⟩,
    backtest_invariants (some (-(1/20))) (1/1000) (by norm_num) (by norm_num)
      [⟨100, 1, 1⟩, ⟨90, 1, -1⟩] hrows 10000 (by norm_num)⟩

/-- C5 counterexample: a 2-point equity series whose single daily return
is +10% has no downside observation, yet the reported Sortino ratio is
not 0 — the code divides the positive mean excess return by the 1e-9
epsilon instead of returning the documented fallback 0. -/
theorem sortino_not_zero_without_downside :
    downsideOf [⟨100, none, 100⟩, ⟨110, some (1/10), 110⟩] (4/100) = [] ∧
    (calculate_metrics [⟨100, none, 100⟩, ⟨110, some (1/10), 110⟩] [] (4/100)).map
      MetricsReport.sortino ≠ .ok 0 := by
  have hx : ¬ ((1 : ℝ)/10 - 4/100/365 < 0) := by norm_num
  have hd : downsideOf [⟨100, none, 100⟩, ⟨110, some (1/10), 110⟩] (4/100) = [] := by
    simp [downsideOf, excessOf, returnsOf, List.filterMap_cons, hx]
    norm_num
  have hmean : meanR (excessOf [⟨100, none, 100⟩, ⟨110, some (1/10), 110⟩] (4/100)) =
      1/10 - 4/100/365 := by
    simp [meanR, excessOf, returnsOf, List.filterMap_cons]
  have hpos : 0 < sortinoOf [⟨100, none, 100⟩, ⟨110, some (1/10), 110⟩] (4/100) := by
    rw [sortinoOf, downsideStdOf, hd]
    simp only [List.length_nil, lt_irrefl, if_false]
    rw [if_pos (by norm_num)]
    exact div_pos (mul_pos (Real.sqrt_pos.mpr (by norm_num))
      (by rw [hmean]; norm_num)) (by norm_num)
  refine ⟨hd, ?_⟩
  have hcalc : (calculate_metrics [⟨100, none, 100⟩, ⟨110, some (1/10), 110⟩] []
      (4/100)).map MetricsReport.sortino =
      .ok (sortinoOf [⟨100, none, 100⟩, ⟨110, some (1/10), 110⟩] (4/100)) := rfl
  rw [hcalc]
  simp only [ne_eq, Except.ok.injEq]
  exact ne_of_gt hpos

/-- C5 amended: when no downside observation exists the downside
deviation falls back to the epsilon 1e-9, so the reported Sortino ratio
equals `sqrt(365) * mean(excess) / 1e-9` — it is 0 exactly when the mean
excess return is 0, not unconditionally. -/
theorem sortino_epsilon_when_no_downside (results : List MEquityRow)
    (riskFree : ℝ) (hd : downsideOf results riskFree = []) :
    sortinoOf results riskFree =
      Real.sqrt 365 * meanR (excessOf results riskFree) / (1/1000000000)
    ∧ (sortinoOf results riskFree = 0 ↔ meanR (excessOf results riskFree) = 0)
    ∧ ∀ (trades : List MTradeRow) (m : MetricsReport),
        calculate_metrics results trades riskFree = .ok m →
        m.sortino = sortinoOf results riskFree := by
  have hstd : downsideStdOf results riskFree = 1/1000000000 := by
    rw [downsideStdOf, hd]
    simp
  have h1 : sortinoOf results riskFree =
      Real.sqrt 365 * meanR (excessOf results riskFree) / (1/1000000000) := by
    rw [sortinoOf, hstd, if_pos (by norm_num)]
  refine ⟨h1, ?_, ?_⟩
  · rw [h1]
    constructor
    · intro h0
      rcases div_eq_zero_iff.1 h0 with h | h
      · rcases mul_eq_zero.1 h with h' | h'
        · exact absurd h' (ne_of_gt (Real.sqrt_pos.mpr (by norm_num)))
        · exact h'
      · exact absurd h (by norm_num)
    · intro h0
      rw [h0, mul_zero, zero_div]
  · intro trades m hm
    cases results with
    | nil => simp [calculate_metrics] at hm
    | cons r rest =>
        rw [← Except.ok.inj hm]

/-- C5 amended witness: a 2-point series with a +5% daily return. -/
theorem sortino_epsilon_when_no_downside_witness :
    downsideOf [⟨100, none, 100⟩, ⟨105, some (1/20), 105⟩] (4/100) = [] ∧
    (sortinoOf [⟨100, none, 100⟩, ⟨105, some (1/20), 105⟩] (4/100) =
      Real.sqrt 365 *
        meanR (excessOf [⟨100, none, 100⟩, ⟨105, some (1/20), 105⟩] (4/100)) /
        (1/1000000000)
    ∧ (sortinoOf [⟨100, none, 100⟩, ⟨105, some (1/20), 105⟩] (4/100) = 0 ↔
        meanR (excessOf [⟨100, none, 100⟩, ⟨105, some (1/20), 105⟩] (4/100)) = 0)
    ∧ ∀ (trades : List MTradeRow) (m : MetricsReport),
        calculate_metrics [⟨100, none, 100⟩, ⟨105, some (1/20), 105⟩] trades
          (4/100) = .ok m →
        m.sortino = sortinoOf [⟨100, none, 100⟩, ⟨105, some (1/20), 105⟩] (4/100)) := by
  have hx : ¬ ((1 : ℝ)/20 - 4/100/365 < 0) := by norm_num
  have hd : downsideOf [⟨100, none, 100⟩, ⟨105, some (1/20), 105⟩] (4/100) = [] := by
    simp [downsideOf, excessOf, returnsOf, List.filterMap_cons, hx]
    norm_num
  exact ⟨hd, sortino_epsilon_when_no_downside _ _ hd⟩

/-- Reading `shift(1)` at a positive in-range index yields the previous
cell of the original series. -/
lemma shift1_getElem (l : List ℚ) (i : ℕ) (h0 : 0 < i) (hi : i < l.length) :
    (shift1 l)[i]? = (l[i - 1]?).map some := by
  cases l with
  | nil => simp at hi
  | cons x xs =>
      obtain ⟨j, rfl⟩ : ∃ j, i = j + 1 := ⟨i - 1, (Nat.succ_pred_eq_of_pos h0).symm⟩
      simp only [shift1, List.getElem?_cons_succ]
      rw [List.getElem?_map, List.dropLast_eq_take, List.getElem?_take_of_lt]
      · simp
      · simp only [List.length_cons] at hi ⊢
        omega

/-- C1: the position column at any in-range index `i ≥ 1` is exactly the
raw signal of record `i-1` (one-day lag), and the position at `i` is
unchanged by replacing the input series with any other series of the
same length that agrees on all records at indices `< i` — so no record
at an index `≥ i` can influence it (no look-ahead). -/
theorem position_is_lagged_signal (hasVol : Bool) (thr : ℚ)
    (rows rowsAlt : List SigRow) (i : ℕ) (h0 : 0 < i) (hi : i < rows.length)
    (hlen : rowsAlt.length = rows.length)
    (hagree : ∀ k, k < i → rows[k]? = rowsAlt[k]?) :
    (∃ r, rows[i - 1]? = some r ∧
      (positionsOf hasVol thr rows)[i]? = some (some (signalVal hasVol thr r)))
    ∧ (positionsOf hasVol thr rowsAlt)[i]? = (positionsOf hasVol thr rows)[i]? := by
  have hi1 : i - 1 < rows.length := Nat.lt_of_le_of_lt (Nat.sub_le i 1) hi
  have hiAlt : i < rowsAlt.length := by
    rw [hlen]
    exact hi
  have hgen : ∀ (l : List SigRow), i < l.length →
      (positionsOf hasVol thr l)[i]? =
        (l[i - 1]?).map fun r => some (signalVal hasVol thr r) := by
    intro l hl
    unfold positionsOf
    rw [shift1_getElem _ i h0 (by simpa using hl), List.getElem?_map, Option.map_map]
    rfl
  refine ⟨⟨rows.get ⟨i - 1, hi1⟩, ?_, ?_⟩, ?_⟩
  · simp [List.getElem?_eq_getElem hi1]
  · rw [hgen rows hi]
    simp [List.getElem?_eq_getElem hi1]
  · rw [hgen rows hi, hgen rowsAlt hiAlt,
      hagree (i - 1) (Nat.lt_of_lt_of_le (Nat.sub_lt h0 Nat.one_pos) (le_refl i))]

/-- C1 witness: a 2-record series with the crossover satisfied on record
0; the position at index 1 is the signal of record 0 and is stable under
replacing the series by itself. -/
theorem position_is_lagged_signal_witness :
    (0 < 1 ∧
      1 < ([⟨1, some 3, some 2, some 1, none⟩, ⟨2, none, none, none, none⟩] :
        List SigRow).length ∧
      (∀ k, k < 1 →
        ([⟨1, some 3, some 2, some 1, none⟩, ⟨2, none, none, none, none⟩] :
          List SigRow)[k]? =
        ([⟨1, some 3, some 2, some 1, none⟩, ⟨2, none, none, none, none⟩] :
          List SigRow)[k]?)) ∧
    ((∃ r, ([⟨1, some 3, some 2, some 1, none⟩, ⟨2, none, none, none, none⟩] :
        List SigRow)[1 - 1]? = some r ∧
      (positionsOf false 0
        [⟨1, some 3, some 2, some 1, none⟩, ⟨2, none, none, none, none⟩])[1]? =
        some (some (signalVal false 0 r)))
    ∧ (positionsOf false 0
        [⟨1, some 3, some 2, some 1, none⟩, ⟨2, none, none, none, none⟩])[1]? =
      (positionsOf false 0
        [⟨1, some 3, some 2, some 1, none⟩, ⟨2, none, none, none, none⟩])[1]?) :=
  ⟨⟨Nat.one_pos, by norm_num, fun _ _ => rfl⟩,
    position_is_lagged_signal false 0 _ _ 1 Nat.one_pos (by norm_num) rfl
      (fun _ _ => rfl)⟩

/-- `diff` of two all-non-NaN series is the plain difference, cell by
cell. -/
lemma zipWith_oSub_map_some (u v : List ℚ) :
    List.zipWith oSub (u.map some) (v.map some) =
      (List.zipWith (fun x y => y - x) u v).map some := by
  induction u generalizing v with
  | nil => simp
  | cons x xs ih =>
      cases v with
      | nil => simp
      | cons y ys => simp [oSub, ih]

/-- When all position and trade cells are non-NaN, the `dropna` zip
keeps every row. -/
lemma dropnaZip_all_some (r : List SigRow) :
    ∀ (s p t : List ℚ), r.length ≤ s.length → r.length ≤ p.length →
      r.length ≤ t.length →
      (dropnaZip r s (p.map some) (t.map some)).map SignalOut.row = r := by
  induction r with
  | nil =>
      intro s p t _ _ _
      simp [dropnaZip]
  | cons x xs ih =>
      intro s p t hs hp ht
      cases s with
      | nil => simp at hs
      | cons s0 sr =>
          cases p with
          | nil => simp at hp
          | cons p0 pr =>
              cases t with
              | nil => simp at ht
              | cons t0 tr =>
                  simp only [List.length_cons] at hs hp ht
                  simp only [dropnaZip, List.map_cons, List.zip_cons_cons,
                    List.filterMap_cons, keepRow]
                  refine congrArg (List.cons x) ?_
                  have := ih sr pr tr (by omega) (by omega) (by omega)
                  simpa [dropnaZip] using this

/-- C6 counterexample: on a 4-record series whose record at index 2 has
an unavailable (NaN) long moving average, the signal generator keeps
that record: its signal is simply 0, because a NaN comparison is false,
and only the first two records are dropped. -/
theorem generate_signals_keeps_unavailable_ma_rows :
    (generate_signals false 0
      [⟨1, none, none, none, none⟩, ⟨2, none, none, none, none⟩,
       ⟨3, none, none, none, none⟩, ⟨4, some 5, some 4, some 1, none⟩]).map
      (fun o => (o.row.close, o.row.smaLong)) = [(3, none), (4, some 4)] := by
  norm_num [generate_signals, dropnaZip, keepRow, shift1, diffList, oSub,
    signalVal, oGt, List.filterMap_cons]

/-- C6 amended: the signal generator drops exactly the first two records
of every input series — index 0 has no lagged position and indices 0 and
1 have no trade difference — and keeps everything from index 2 on,
including records whose moving averages are unavailable (their raw
signal is 0, never NaN). -/
theorem generate_signals_drops_exactly_first_two (hasVol : Bool) (thr : ℚ)
    (rows : List SigRow) :
    (generate_signals hasVol thr rows).map SignalOut.row = rows.drop 2 := by
  match rows with
  | [] => rfl
  | [a] => rfl
  | a :: b :: rest =>
      have key : ∀ (fa : ℚ) (u : List ℚ),
          List.zipWith oSub (none :: (fa :: u).map some) ((fa :: u).map some) =
            none :: (List.zipWith (fun x y => y - x) (fa :: u) u).map some := by
        intro fa u
        simp only [List.map_cons, List.zipWith_cons_cons]
        refine congrArg (List.cons (oSub none (some fa))) ?_
        simpa using zipWith_oSub_map_some (fa :: u) u
      simp only [generate_signals, List.map_cons]
      rw [show shift1 (signalVal hasVol thr a :: signalVal hasVol thr b ::
            rest.map (signalVal hasVol thr)) =
          none :: ((signalVal hasVol thr a ::
            (signalVal hasVol thr b :: rest.map (signalVal hasVol thr)).dropLast).map some)
        from by simp only [shift1, List.dropLast_cons₂]]
      rw [show diffList (none :: ((signalVal hasVol thr a ::
            (signalVal hasVol thr b :: rest.map (signalVal hasVol thr)).dropLast).map some)) =
          none :: none :: (List.zipWith (fun x y => y - x)
            (signalVal hasVol thr a ::
              (signalVal hasVol thr b :: rest.map (signalVal hasVol thr)).dropLast)
            ((signalVal hasVol thr b :: rest.map (signalVal hasVol thr)).dropLast)).map some
        from by
          simp only [diffList]
          exact congrArg (List.cons none)
            (key (signalVal hasVol thr a)
              ((signalVal hasVol thr b :: rest.map (signalVal hasVol thr)).dropLast))]
      simp only [dropnaZip, List.map_cons, List.zip_cons_cons, List.filterMap_cons,
        keepRow]
      rw [List.drop_succ_cons, List.drop_succ_cons, List.drop_zero]
      have hlenu : rest.length ≤
          ((signalVal hasVol thr b :: rest.map (signalVal hasVol thr)).dropLast).length := by
        simp
      have hlenw : rest.length ≤
          (List.zipWith (fun x y => y - x)
            (signalVal hasVol thr a ::
              (signalVal hasVol thr b :: rest.map (signalVal hasVol thr)).dropLast)
            ((signalVal hasVol thr b :: rest.map (signalVal hasVol thr)).dropLast)).length := by
        simp [List.length_zipWith]
      have := dropnaZip_all_some rest (rest.map (signalVal hasVol thr))
        ((signalVal hasVol thr b :: rest.map (signalVal hasVol thr)).dropLast)
        (List.zipWith (fun x y => y - x)
          (signalVal hasVol thr a ::
            (signalVal hasVol thr b :: rest.map (signalVal hasVol thr)).dropLast)
          ((signalVal hasVol thr b :: rest.map (signalVal hasVol thr)).dropLast))
        (by simp) hlenu hlenw
      simpa [dropnaZip] using this

end Momentum
